import Mathlib

/- The Batteries rational arithmetic primitives are marked irreducible purely
so that interactive goals do not unfold them; re-marking them semireducible
here (the kernel ignores reducibility attributes) lets concrete fee
computations be settled by kernel reduction. -/
unseal Rat.add Rat.mul Rat.inv Rat.sub Rat.ofScientific

/-!
Shallow embedding of the Fee Normalization & Calculation Engine of
`src/utils/calc.ts` (a client-side broker fee comparison app), together with
proofs of the specified properties.

Modelling conventions:
* JS numbers are modelled as exact rationals.  Every arithmetic step the
  engine performs on the inputs appearing in the verified properties is exact
  in binary floating point as well (products of parsed decimals with the
  reference amounts, clamping, and the epsilon-rounding of values that are
  multiples of 1/1000), so the rational model is observationally faithful on
  those inputs.
* JS strings are modelled as Lean strings; the regular expressions of the
  source are implemented as executable scanning functions over the character
  list, reproducing the leftmost-match-with-backtracking semantics of the
  concrete patterns used by the source.
* Fallible lookups and nullable fields are modelled with `Option`.
-/

/-- The rational value of `Number.EPSILON` (2 to the power -52). -/
def NumberEPSILON : ℚ := 1 / 2 ^ 52

/-- JS `Math.round`: round to nearest integer, halves toward positive
infinity.  On rationals this is exactly the floor of `x + 1/2`. -/
def jsMathRound (x : ℚ) : ℤ := (x + 1 / 2).floor

/-- calc.ts line 5: `Math.round((value + Number.EPSILON) * 100) / 100`. -/
def roundToCents (value : ℚ) : ℚ := (jsMathRound ((value + NumberEPSILON) * 100) : ℚ) / 100

/-- JS whitespace test for the regex class `\s`, restricted to the ASCII
whitespace characters (the only whitespace appearing in the payloads). -/
def jsSpace (c : Char) : Bool :=
  c = ' ' || c = '\t' || c = '\n' || c = '\r' || c = '\x0b' || c = '\x0c'

/-- Does `hay` start with `needle` (char-for-char)? -/
def startsWithCh : List Char → List Char → Bool
  | _, [] => true
  | [], _ :: _ => false
  | h :: hs, n :: ns => h = n && startsWithCh hs ns

/-- Substring search, the semantics of JS `String.prototype.includes`. -/
def listContains (hay needle : List Char) : Bool :=
  if startsWithCh hay needle then true
  else
    match hay with
    | [] => false
    | _ :: t => listContains t needle

/-- JS `a.includes(b)` on strings. -/
def jsIncludes (s sub : String) : Bool := listContains s.data sub.data

/-- JS `String.prototype.toLowerCase`, restricted to ASCII case mapping (the
strings the engine lowercases contain no letters outside ASCII). -/
def jsToLower (s : String) : String := ⟨s.data.map Char.toLower⟩

/-- Truthiness of an optional JS string (`undefined`, `null` and `""` are
falsy). -/
def errTruthy : Option String → Bool
  | none => false
  | some s => !s.isEmpty

/-- Numeric value of a digit run (the `parseFloat` of its text). -/
def digitsToNat (ds : List Char) : Nat :=
  ds.foldl (fun n c => n * 10 + (c.toNat - '0'.toNat)) 0

/-- Exact value of a decimal literal `\d+(\.\d+)?` with the commas of a
thousands-grouped literal removed, as `parseFloat` computes it. -/
def decimalVal (cs : List Char) : ℚ :=
  let cleaned := cs.filter (fun c => c ≠ ',')
  let intPart := cleaned.takeWhile (fun c => c ≠ '.')
  let rest := cleaned.dropWhile (fun c => c ≠ '.')
  match rest with
  | _ :: frac => (digitsToNat intPart : ℚ) + (digitsToNat frac : ℚ) / 10 ^ frac.length
  | [] => (digitsToNat intPart : ℚ)

/-- Match the regex fragment `\d+(?:\.\d+)?` at the head of `cs` by maximal
munch, returning the value of the captured text and the remaining input.
The greedy match is the only one a backtracking engine can continue from
here: giving digits back leaves the next character a digit, which none of
the continuations in the source patterns (`\s`, `%`, end) accepts, and a
bare dot after the integer digits likewise fails every continuation. -/
def matchNumber (cs : List Char) : Option (ℚ × List Char) :=
  let ds := cs.takeWhile Char.isDigit
  let r1 := cs.dropWhile Char.isDigit
  if ds.isEmpty then none
  else
    match r1 with
    | '.' :: r2 =>
      let fs := r2.takeWhile Char.isDigit
      if fs.isEmpty then some (decimalVal ds, r1)
      else some (decimalVal (ds ++ '.' :: fs), r2.dropWhile Char.isDigit)
    | _ => some (decimalVal ds, r1)

/-- Scan for the first match of `(\d+(?:\.\d+)?)\s*%` (calc.ts line 24),
advancing one character at a time exactly like the regex engine. -/
def percentScan : List Char → Option ℚ
  | [] => none
  | c :: rest =>
    match matchNumber (c :: rest) with
    | some (q, r) =>
      match r.dropWhile jsSpace with
      | x :: _ => if x = '%' then some q else percentScan rest
      | [] => percentScan rest
    | none => percentScan rest

/-- calc.ts lines 23-26: `parsePercentage` via the regex
`/(\d+(?:\.\d+)?)\s*%/`. -/
def parsePercentage (s : String) : Option ℚ := percentScan s.data

/-- Scan for the first match of `€\s*(\d+(?:\.\d+)?)` (calc.ts line 29). -/
def euroScan : List Char → Option ℚ
  | [] => none
  | c :: rest =>
    if c = '€' then
      match matchNumber (rest.dropWhile jsSpace) with
      | some (q, _) => some q
      | none => euroScan rest
    else euroScan rest

/-- calc.ts lines 28-31: `parseEuroAmount` via the regex
`/€\s*(\d+(?:\.\d+)?)/`. -/
def parseEuroAmount (s : String) : Option ℚ := euroScan s.data

/-- Match the regex tail `\s*€?\s*(\d+(?:\.\d+)?)` at the head of `cs`.
If the euro sign is present the engine must consume it: skipping it leaves
the euro sign in front of `\d`, which fails. -/
def minMaxTail (cs : List Char) : Option ℚ :=
  let r1 := cs.dropWhile jsSpace
  let r2 := match r1 with
    | '€' :: t => t
    | _ => r1
  (matchNumber (r2.dropWhile jsSpace)).map (fun p => p.1)

/-- Case-insensitive literal prefix match (for the `/i` patterns of
calc.ts lines 35-36); `marker` is given in lowercase. -/
def stripMarker : List Char → List Char → Option (List Char)
  | cs, [] => some cs
  | [], _ :: _ => none
  | c :: cs, m :: ms => if c.toLower = m then stripMarker cs ms else none

/-- Scan for the first match of `marker` (case-insensitively) followed by
`\s*€?\s*(\d+(?:\.\d+)?)`, advancing one character at a time. -/
def markerScan (marker : List Char) : List Char → Option ℚ
  | [] => none
  | c :: rest =>
    match stripMarker (c :: rest) marker with
    | some tail =>
      match minMaxTail tail with
      | some q => some q
      | none => markerScan marker rest
    | none => markerScan marker rest

/-- calc.ts lines 33-40: `parseMinMaxFromStructure`, returning the pair of
the `min.` match and the `max.` match. -/
def parseMinMaxFromStructure (s : String) : Option ℚ × Option ℚ :=
  (markerScan ['m', 'i', 'n', '.'] s.data, markerScan ['m', 'a', 'x', '.'] s.data)

/-- All ways a backtracking engine can consume `\s*` at the head of `cs`,
longest first (greedy), as the list of remaining inputs. -/
def spacesAlts (cs : List Char) : List (List Char) :=
  let k := (cs.takeWhile jsSpace).length
  (List.range (k + 1)).map (fun i => cs.drop (k - i))

/-- All ways to consume `€?\s*`, in backtracking preference order (euro sign
consumed first, then each greedy-to-empty whitespace run). -/
def euroSpaceAlts (cs : List Char) : List (List Char) :=
  (match cs with
   | '€' :: t => spacesAlts t
   | _ => []) ++ spacesAlts cs

/-- All ways to consume `\d+` (nonempty digit runs, longest first), as pairs
of consumed text and remaining input. -/
def digitRunAlts (cs : List Char) : List (List Char × List Char) :=
  let k := (cs.takeWhile Char.isDigit).length
  (List.range k).map (fun i => (cs.take (k - i), cs.drop (k - i)))

/-- Greatest number of repetitions of `,\d{3}` matching at the head of `cs`. -/
def commaGroupCount : List Char → Nat
  | ',' :: a :: b :: c :: rest =>
    if a.isDigit && b.isDigit && c.isDigit then commaGroupCount rest + 1 else 0
  | _ => 0

/-- All ways to consume `(?:,\d{3})*`, most repetitions first. -/
def commaAlts (cs : List Char) : List (List Char × List Char) :=
  let m := commaGroupCount cs
  (List.range (m + 1)).map (fun i => (cs.take (4 * (m - i)), cs.drop (4 * (m - i))))

/-- All ways to consume `(?:\.\d+)?`: with the fraction (longest digit run
first) and then without it. -/
def fracAlts (cs : List Char) : List (List Char × List Char) :=
  (match cs with
   | '.' :: rest => (digitRunAlts rest).map (fun p => ('.' :: p.1, p.2))
   | _ => []) ++ [([], cs)]

/-- All ways to consume a number group `\d+(?:,\d{3})*(?:\.\d+)?` of the
tier-range regex (calc.ts line 119), in backtracking preference order, as
pairs of captured text and remaining input. -/
def numAlts (cs : List Char) : List (List Char × List Char) :=
  (digitRunAlts cs).flatMap (fun d =>
    (commaAlts d.2).flatMap (fun c =>
      (fracAlts c.2).map (fun f => (d.1 ++ c.1 ++ f.1, f.2))))

/-- All ways to consume the leading alternation `(?:from|€?\s*)`. -/
def leadAlts (cs : List Char) : List (List Char) :=
  (if startsWithCh cs ['f', 'r', 'o', 'm'] then [cs.drop 4] else []) ++ euroSpaceAlts cs

/-- All ways to consume the middle alternation `(?:to|€?\s*)`. -/
def midAlts (cs : List Char) : List (List Char) :=
  (if startsWithCh cs ['t', 'o'] then [cs.drop 2] else []) ++ euroSpaceAlts cs

/-- Try to match the tier-range regex of calc.ts line 119,
`(?:from|€?\s*)(\d+(?:,\d{3})*(?:\.\d+)?)\s*(?:to|€?\s*)(\d+(?:,\d{3})*(?:\.\d+)?)`,
anchored at the head of `cs`, returning the two captured numbers with commas
stripped (line 121-122).  The alternatives are explored in the preference
order of a backtracking engine, the first full success winning. -/
def matchRangeAt (cs : List Char) : Option (ℚ × ℚ) :=
  (leadAlts cs).findSome? fun r0 =>
    (numAlts r0).findSome? fun g1 =>
      (spacesAlts g1.2).findSome? fun r2 =>
        (midAlts r2).findSome? fun r3 =>
          (numAlts r3).findSome? fun g2 =>
            some (decimalVal g1.1, decimalVal g2.1)

/-- Leftmost match of the tier-range regex: try each start position. -/
def rangeScan : List Char → Option (ℚ × ℚ)
  | [] => matchRangeAt []
  | c :: rest =>
    match matchRangeAt (c :: rest) with
    | some r => some r
    | none => rangeScan rest

/-- The `volOrCond.match(tierRangeRegex)` test of calc.ts lines 119-122. -/
def matchVolumeRange (s : String) : Option (ℚ × ℚ) := rangeScan s.data

/-- types.ts `StructuredFormula`: all four fields are `number | null`. -/
structure StructuredFormula where
  base : Option ℚ
  percent : Option ℚ
  min : Option ℚ
  max : Option ℚ
deriving DecidableEq

/-- types.ts `PricingTier`: `from`, `to` and `fee` are `number | null`. -/
structure PricingTier where
  «from» : Option ℚ
  «to» : Option ℚ
  fee : Option ℚ
  currency : String
deriving DecidableEq

/-- types.ts `TransactionFee`. -/
structure TransactionFee where
  instrument_type : String
  market : String
  pricing_type : String
  formula_human : String
  formula_structured : Option StructuredFormula
  tiers : Option (List PricingTier)
  notes : String
deriving DecidableEq

/-- types.ts `CustodyFee`. -/
structure CustodyFee where
  type : String
  value : Option ℚ
  currency : String
  frequency : String
  notes : String
deriving DecidableEq

/-- types.ts `FxFee`. -/
structure FxFee where
  type : String
  value : Option ℚ
  notes : String
deriving DecidableEq

/-- types.ts `OtherFee`. -/
structure OtherFee where
  name : String
  type : String
  value : Option ℚ
  currency : String
  frequency : String
  notes : String
deriving DecidableEq

/-- The `pricing_model` object of types.ts `BrokerApiResponse`. -/
structure PricingModel where
  custody_fee : Option CustodyFee
  transaction_fees : Option (List TransactionFee)
  fx_fees : Option FxFee
  other_fees : Option (List OtherFee)
deriving DecidableEq

/-- types.ts `BrokerApiResponse` (the canonical, legacy shape).  Apart from
`broker_name`, fields are wrapped in `Option` with `none` encoding a field
that is absent from the underlying JSON object: the flattener reads
`pricing_model` and `source_url` dynamically, so absence is observable. -/
structure BrokerApiResponse where
  broker_name : String
  country : Option String
  source_url : Option String
  source_type : Option String
  source_last_checked : Option String
  account_type : Option String
  pricing_model : Option PricingModel
deriving DecidableEq

/-- types.ts `FeeTier` of the human-readable shape. -/
structure FeeTier where
  volume_or_condition : String
  fee_structure : String
  notes : Option String
deriving DecidableEq

/-- types.ts `FeeCategory` of the human-readable shape. -/
structure FeeCategory where
  category : String
  description : String
  tiers : List FeeTier
deriving DecidableEq

/-- types.ts `SpecialFee` of the human-readable shape. -/
structure SpecialFee where
  description : String
  amount : String
  when_applied : String
deriving DecidableEq

/-- types.ts `NewBrokerResponseFormat` (the human-readable shape), restricted
to the fields the engine reads (classifier lines 42-52 and normalizer lines
58-207); the remaining optional fields of the interface are never read and
are inert, so they are omitted from the model. -/
structure NewBrokerResponseFormat where
  broker_name : String
  summary : Option String
  fee_categories : Option (List FeeCategory)
  special_fees : Option (List SpecialFee)
  custody_charges : Option String
  missing_data : Option (List String)
  error : Option String
deriving DecidableEq

/-- JS `Math.max` on two numbers (kernel-reducible, unlike the lattice
operations). -/
def jsMax (a b : ℚ) : ℚ := if a ≤ b then b else a

/-- JS `Math.min` on two numbers. -/
def jsMin (a b : ℚ) : ℚ := if a ≤ b then a else b

/-- calc.ts line 213: the linear branch applies when `formula_structured` is
present and has a non-null `base` or `percent`. -/
def hasLinearFormula (fee : TransactionFee) : Bool :=
  match fee.formula_structured with
  | some structured => structured.base.isSome || structured.percent.isSome
  | none => false

/-- calc.ts line 217: clamp to the lower bound only when it is present. -/
def clampMin (bound : Option ℚ) (x : ℚ) : ℚ :=
  match bound with
  | some m => jsMax x m
  | none => x

/-- calc.ts line 218: clamp to the upper bound only when it is present. -/
def clampMax (bound : Option ℚ) (x : ℚ) : ℚ :=
  match bound with
  | some m => jsMin x m
  | none => x

/-- calc.ts lines 214-219: evaluate the linear formula, clamping to `min`
(when present) and then to `max` (when present), and round to cents. -/
def evalLinear (fee : TransactionFee) (amount : ℚ) : Option ℚ :=
  match fee.formula_structured with
  | some structured =>
    some (roundToCents (clampMax structured.max (clampMin structured.min
      (structured.base.getD 0 + structured.percent.getD 0 / 100 * amount))))
  | none => none

/-- calc.ts lines 224-226: a tier matches when the amount is at least `from`
(absent meaning unbounded below) and at most `to` (absent meaning unbounded
above). -/
def tierContains (amount : ℚ) (t : PricingTier) : Bool :=
  (t.«from».all fun f => decide (f ≤ amount)) && (t.«to».all fun u => decide (amount ≤ u))

/-- calc.ts lines 222-231: the tier-lookup branch; the first matching tier in
list order wins, and a null tier fee yields null. -/
def evalTiers (fee : TransactionFee) (amount : ℚ) : Option ℚ :=
  match fee.tiers with
  | some tiers =>
    if tiers.isEmpty then none
    else
      match tiers.find? (tierContains amount) with
      | some t => t.fee.map roundToCents
      | none => none
  | none => none

/-- calc.ts lines 209-234: `calcLinearOrTieredFee`.  A `none` fee models the
`!fee` guard of line 210. -/
def calcLinearOrTieredFee (fee : Option TransactionFee) (amount : ℚ) : Option ℚ :=
  match fee with
  | none => none
  | some fee => if hasLinearFormula fee then evalLinear fee amount else evalTiers fee amount

/-- A JSON value, for the dynamic (untyped) boundary of the engine. -/
inductive JVal where
  | null
  | bool (b : Bool)
  | num (q : ℚ)
  | str (s : String)
  | arr (elems : List JVal)
  | obj (fields : List (String × JVal))

/-- Property lookup on a JS object literal (runtime objects have unique
keys, so first match suffices). -/
def lookupStr : List (String × JVal) → String → Option JVal
  | [], _ => none
  | (k, v) :: rest, name => if k = name then some v else lookupStr rest name

/-- JS property access `v[name]`, returning `none` for `undefined` (also on
non-objects, which have none of the properties the classifier reads). -/
def getField : JVal → String → Option JVal
  | .obj fields, name => lookupStr fields name
  | _, _ => none

/-- JS truthiness of a JSON value (`NaN`, which is also falsy, cannot arise
in the rational model). -/
def jsTruthy : JVal → Bool
  | .null => false
  | .bool b => b
  | .num q => decide (q ≠ 0)
  | .str s => !s.isEmpty
  | .arr _ => true
  | .obj _ => true

/-- JS `typeof v === "object"` (true for `null`, arrays and objects). -/
def typeofIsObject : JVal → Bool
  | .null => true
  | .arr _ => true
  | .obj _ => true
  | _ => false

/-- Is the property present with a string value (`typeof x === "string"`)? -/
def isStrVal : Option JVal → Bool
  | some (.str _) => true
  | _ => false

/-- Is the property present with an array value (`Array.isArray(x)`)? -/
def isArrVal : Option JVal → Bool
  | some (.arr _) => true
  | _ => false

/-- calc.ts lines 42-52: `isNewFormat`, the format classifier. -/
def isNewFormat (v : JVal) : Bool :=
  if !jsTruthy v || !typeofIsObject v then false
  else
    isStrVal (getField v "broker_name") &&
      (isArrVal (getField v "fee_categories") || isArrVal (getField v "special_fees") ||
        isStrVal (getField v "custody_charges") || isStrVal (getField v "summary"))

/-- Render an optional field of a JSON object: absent when `none`. -/
def optJ {α : Type} (name : String) (f : α → JVal) : Option α → List (String × JVal)
  | none => []
  | some a => [(name, f a)]

/-- A `number | null` field rendered as a JSON value. -/
def jnum : Option ℚ → JVal
  | some q => .num q
  | none => .null

/-- JSON shape of a `FeeTier` of the human-readable payload. -/
def feeTierToJVal (t : FeeTier) : JVal :=
  .obj ([("volume_or_condition", .str t.volume_or_condition), ("fee_structure", .str t.fee_structure)]
    ++ optJ "notes" JVal.str t.notes)

/-- JSON shape of a `FeeCategory` of the human-readable payload. -/
def feeCategoryToJVal (c : FeeCategory) : JVal :=
  .obj [("category", .str c.category), ("description", .str c.description),
    ("tiers", .arr (c.tiers.map feeTierToJVal))]

/-- JSON shape of a `SpecialFee` of the human-readable payload. -/
def specialFeeToJVal (f : SpecialFee) : JVal :=
  .obj [("description", .str f.description), ("amount", .str f.amount),
    ("when_applied", .str f.when_applied)]

/-- JSON shape of a human-readable broker record (optional fields are absent
when `none`). -/
def newBrokerToJVal (b : NewBrokerResponseFormat) : JVal :=
  .obj (("broker_name", .str b.broker_name) ::
    (optJ "summary" JVal.str b.summary
      ++ optJ "fee_categories" (fun l => .arr (l.map feeCategoryToJVal)) b.fee_categories
      ++ optJ "special_fees" (fun l => .arr (l.map specialFeeToJVal)) b.special_fees
      ++ optJ "custody_charges" JVal.str b.custody_charges
      ++ optJ "missing_data" (fun l => .arr (l.map JVal.str)) b.missing_data
      ++ optJ "error" JVal.str b.error))

/-- JSON shape of a `StructuredFormula` (nullable numeric fields present as
`null`). -/
def structuredFormulaToJVal (s : StructuredFormula) : JVal :=
  .obj [("base", jnum s.base), ("percent", jnum s.percent), ("min", jnum s.min),
    ("max", jnum s.max)]

/-- JSON shape of a `PricingTier`. -/
def pricingTierToJVal (t : PricingTier) : JVal :=
  .obj [("from", jnum t.«from»), ("to", jnum t.«to»), ("fee", jnum t.fee),
    ("currency", .str t.currency)]

/-- JSON shape of a `TransactionFee`. -/
def transactionFeeToJVal (f : TransactionFee) : JVal :=
  .obj [("instrument_type", .str f.instrument_type), ("market", .str f.market),
    ("pricing_type", .str f.pricing_type), ("formula_human", .str f.formula_human),
    ("formula_structured", f.formula_structured.elim JVal.null structuredFormulaToJVal),
    ("tiers", f.tiers.elim JVal.null (fun l => .arr (l.map pricingTierToJVal))),
    ("notes", .str f.notes)]

/-- JSON shape of a `CustodyFee`. -/
def custodyFeeToJVal (c : CustodyFee) : JVal :=
  .obj [("type", .str c.type), ("value", jnum c.value), ("currency", .str c.currency),
    ("frequency", .str c.frequency), ("notes", .str c.notes)]

/-- JSON shape of an `FxFee`. -/
def fxFeeToJVal (f : FxFee) : JVal :=
  .obj [("type", .str f.type), ("value", jnum f.value), ("notes", .str f.notes)]

/-- JSON shape of an `OtherFee`. -/
def otherFeeToJVal (f : OtherFee) : JVal :=
  .obj [("name", .str f.name), ("type", .str f.type), ("value", jnum f.value),
    ("currency", .str f.currency), ("frequency", .str f.frequency), ("notes", .str f.notes)]

/-- JSON shape of a `pricing_model` object (nullable members present as
`null`). -/
def pricingModelToJVal (pm : PricingModel) : JVal :=
  .obj [("custody_fee", pm.custody_fee.elim JVal.null custodyFeeToJVal),
    ("transaction_fees", pm.transaction_fees.elim JVal.null (fun l => .arr (l.map transactionFeeToJVal))),
    ("fx_fees", pm.fx_fees.elim JVal.null fxFeeToJVal),
    ("other_fees", pm.other_fees.elim JVal.null (fun l => .arr (l.map otherFeeToJVal)))]

/-- JSON shape of a canonical (legacy-shape) broker record; this is exactly
the key set of the object the normalizer returns (calc.ts lines 184-205). -/
def brokerApiToJVal (b : BrokerApiResponse) : JVal :=
  .obj (("broker_name", .str b.broker_name) ::
    (optJ "country" JVal.str b.country
      ++ optJ "source_url" JVal.str b.source_url
      ++ optJ "source_type" JVal.str b.source_type
      ++ optJ "source_last_checked" JVal.str b.source_last_checked
      ++ optJ "account_type" JVal.str b.account_type
      ++ optJ "pricing_model" pricingModelToJVal b.pricing_model))

/-- JS `x || y` on nullable numbers: `null`, `undefined` and `0` are falsy
(`NaN`, also falsy, cannot arise from the parsers). -/
def jsOrNum (a b : Option ℚ) : Option ℚ :=
  match a with
  | some v => if v = 0 then b else some v
  | none => b

/-- calc.ts lines 73-76: instrument type from the lowercased category name. -/
def instrumentTypeFor (categoryName : String) : String :=
  if jsIncludes categoryName "option" then "Options"
  else if jsIncludes categoryName "bond" then "Bonds"
  else if jsIncludes categoryName "fund" then "Funds"
  else "Equities"

/-- calc.ts lines 79-99: market from the lowercased condition text.  The
`"Helsinki"` checks are kept verbatim: they compare a capitalized literal
against a lowercased string, so only the `"omx"` test of that branch (and
then its `"Oslo"` fallback) can ever fire. -/
def marketFor (volOrCond : String) : String :=
  if jsIncludes volOrCond "brussels" || jsIncludes volOrCond "amsterdam" || jsIncludes volOrCond "paris" then
    "Euronext"
  else if jsIncludes volOrCond "frankfurt" || jsIncludes volOrCond "xetra" then "Frankfurt"
  else if jsIncludes volOrCond "london" || jsIncludes volOrCond "liffe" then "London"
  else if jsIncludes volOrCond "zurich" || jsIncludes volOrCond "six" then "Zurich"
  else if jsIncludes volOrCond "us" || jsIncludes volOrCond "cboe" then "USA"
  else if jsIncludes volOrCond "canada" || jsIncludes volOrCond "tsx" then "Canada"
  else if jsIncludes volOrCond "Helsinki" || jsIncludes volOrCond "omx" then
    (if jsIncludes volOrCond "Helsinki" then "Helsinki"
     else if jsIncludes volOrCond "Stockholm" then "Stockholm"
     else if jsIncludes volOrCond "Kopenhagen" then "Copenhagen"
     else "Oslo")
  else if jsIncludes volOrCond "index" then "Index Options"
  else "Euronext"

/-- Result of parsing one fee-structure text (the mutable locals of calc.ts
lines 102-106 after lines 108-134 have run). -/
structure FeeParse where
  base : Option ℚ
  percent : Option ℚ
  min : Option ℚ
  max : Option ℚ
  tieredPricing : Option (List PricingTier)
deriving DecidableEq

/-- calc.ts lines 108-134: parse a fee-structure text (given the lowercased
condition text for the tier-range test), then overlay the explicit
`min.`/`max.` matches. -/
def parseFeeStructure (volOrCond feeStructure : String) : FeeParse :=
  let p1 : FeeParse :=
    if feeStructure = "Free" || jsToLower feeStructure = "free" then
      ⟨some 0, none, none, none, none⟩
    else if jsIncludes feeStructure "%" then
      ⟨none, parsePercentage feeStructure,
        (if jsIncludes feeStructure "min" then parseEuroAmount feeStructure else none),
        none, none⟩
    else if jsIncludes feeStructure "€" || jsIncludes feeStructure "$" || jsIncludes feeStructure "£" then
      match matchVolumeRange volOrCond with
      | some ft =>
        ⟨none, none, none, none, some [⟨some ft.1, some ft.2, parseEuroAmount feeStructure, "EUR"⟩]⟩
      | none => ⟨parseEuroAmount feeStructure, none, none, none, none⟩
    else ⟨none, none, none, none, none⟩
  let mm := parseMinMaxFromStructure feeStructure
  { p1 with
    min := match mm.1 with
      | some v => some v
      | none => p1.min
    max := match mm.2 with
      | some v => some v
      | none => p1.max }

/-- calc.ts lines 78-150: the transaction fee pushed for one tier of a fee
category. -/
def tierToTransactionFee (instrumentType : String) (t : FeeTier) : TransactionFee :=
  let volOrCond := jsToLower t.volume_or_condition
  let p := parseFeeStructure volOrCond t.fee_structure
  { instrument_type := instrumentType,
    market := marketFor volOrCond,
    pricing_type := if p.tieredPricing.isSome then "tiered" else "linear",
    formula_human := t.fee_structure,
    formula_structured := some ⟨p.base, p.percent, p.min, p.max⟩,
    tiers := p.tieredPricing,
    notes := t.notes.getD "" }

/-- calc.ts lines 68-152: all transaction fees of one broker, in category
then tier order. -/
def convertTransactionFees (broker : NewBrokerResponseFormat) : List TransactionFee :=
  match broker.fee_categories with
  | none => []
  | some cats =>
    cats.flatMap fun cat =>
      cat.tiers.map (tierToTransactionFee (instrumentTypeFor (jsToLower cat.category)))

/-- calc.ts lines 156-167: the other-fee record built from one special fee. -/
def mkOtherFee (fee : SpecialFee) : OtherFee :=
  { name := fee.description,
    type := if jsIncludes fee.amount "%" then "percentage" else "fixed",
    value := jsOrNum (parseEuroAmount fee.amount) (parsePercentage fee.amount),
    currency := "EUR",
    frequency := if jsIncludes fee.when_applied "annual" then "yearly" else "on transaction",
    notes := fee.when_applied }

/-- calc.ts lines 170-182: the custody record, unless the charge text is
absent, empty or the literal marker "None". -/
def convertCustody (broker : NewBrokerResponseFormat) : Option CustodyFee :=
  match broker.custody_charges with
  | some s =>
    if !s.isEmpty && s ≠ "None" then
      let isPercent := jsIncludes s "%"
      some
        { type := if isPercent then "percentage" else "fixed",
          value := if isPercent then parsePercentage s else parseEuroAmount s,
          currency := "EUR",
          frequency := if jsIncludes s "month" then "monthly" else "yearly",
          notes := s }
    else none
  | none => none

/-- calc.ts lines 194-202: the FX record, synthesized whenever the
`special_fees` field is present; its value comes from the first special fee
whose lowercased description contains "currency", provided that the amount
text of that fee contains a percent sign. -/
def convertFxFees (broker : NewBrokerResponseFormat) : Option FxFee :=
  match broker.special_fees with
  | none => none
  | some fees =>
    some
      { type := "percentage",
        value :=
          match fees.find? (fun f => jsIncludes (jsToLower f.description) "currency") with
          | some f => if jsIncludes f.amount "%" then parsePercentage f.amount else none
          | none => none,
        notes := "Currency conversion" }

/-- calc.ts lines 63-205: conversion of one (non-error) human-readable
broker record to the canonical shape.  The `source_last_checked` timestamp
(`new Date().toISOString()`) is modelled as a constant string: it is opaque
to every other part of the engine.  Line 187 puts the same URL in both
branches of its conditional. -/
def convertBroker (broker : NewBrokerResponseFormat) : BrokerApiResponse :=
  let transactionFees := convertTransactionFees broker
  let otherFees := (broker.special_fees.getD []).map mkOtherFee
  { broker_name := broker.broker_name,
    country := some "Belgium",
    source_url := some "https://broker.example.com",
    source_type := some "broker_website",
    source_last_checked := some "1970-01-01T00:00:00.000Z",
    account_type := some "private",
    pricing_model := some
      { custody_fee := convertCustody broker,
        transaction_fees := if transactionFees.isEmpty then none else some transactionFees,
        fx_fees := convertFxFees broker,
        other_fees := if otherFees.isEmpty then none else some otherFees } }

/-- calc.ts lines 58-207: `convertNewFormatToOldFormat` drops records with a
truthy `error` field, then converts each remaining record. -/
def convertNewFormatToOldFormat (brokerData : List NewBrokerResponseFormat) : List BrokerApiResponse :=
  (brokerData.filter (fun broker => !errTruthy broker.error)).map convertBroker

/-- JS `String.prototype.trim` (over the modelled whitespace set). -/
def jsTrim (s : String) : String :=
  ⟨((s.data.dropWhile jsSpace).reverse.dropWhile jsSpace).reverse⟩

/-- Decimal digits of `n`, left-padded with zeros to `width`. -/
def fracPad (n : Nat) (width : Nat) : String :=
  let s := toString n
  ⟨List.replicate (width - s.length) '0'⟩ ++ s

/-- JS default number-to-string conversion, for the finite decimal fractions
the parsers produce (integers print without a point, other values with the
shortest exact fraction).  No verified property inspects the rendered text;
rationals outside the decimal fragment fall back to a num/den rendering. -/
def decimalString (q : ℚ) : String :=
  if q.den = 1 then toString q.num
  else
    let sign := if q < 0 then "-" else ""
    let aq := |q|
    match (List.range 30).findSome? (fun i =>
      let k := i + 1
      let scaled := aq * 10 ^ k
      if scaled.den = 1 then
        some (sign ++ toString (scaled.num / (10 : ℤ) ^ k) ++ "." ++ fracPad (scaled.num % (10 : ℤ) ^ k).toNat k)
      else none) with
    | some s => s
    | none => sign ++ toString aq.num ++ "/" ++ toString aq.den

/-- calc.ts lines 10-19: the summary text of one other-fee record. -/
def otherFeeSummary (fee : OtherFee) : String :=
  let parts : List String :=
    (match fee.value with
     | some v =>
       let freq := if !fee.frequency.isEmpty then "/" ++ fee.frequency else ""
       [jsTrim (decimalString v ++ " " ++ fee.currency ++ freq)]
     | none => []) ++
    (if !fee.notes.isEmpty then [fee.notes] else [])
  let detail := if parts.isEmpty then "" else " (" ++ String.intercalate " • " parts ++ ")"
  fee.name ++ detail

/-- calc.ts lines 7-21: `summarizeOtherFees` (empty for an absent or empty
list). -/
def summarizeOtherFees (fees : Option (List OtherFee)) : String :=
  match fees with
  | none => ""
  | some fees =>
    if fees.isEmpty then ""
    else String.intercalate "; " (fees.map otherFeeSummary)

/-- types.ts `FlattenedPricingRow`.  The `sourceUrl` is optional because the
flattener copies `broker.source_url` without a default. -/
structure FlattenedPricingRow where
  id : String
  broker : String
  instrumentType : String
  market : String
  pricingType : String
  baseFee : Option ℚ
  percentFee : Option ℚ
  minFee : Option ℚ
  maxFee : Option ℚ
  custodyFeeType : String
  custodyFeeValue : Option ℚ
  custodyFrequency : String
  fxFeeType : String
  fxFeeValue : Option ℚ
  otherFeesSummary : String
  exampleFee1000 : Option ℚ
  exampleFee5000 : Option ℚ
  exampleFee10000 : Option ℚ
  sourceUrl : Option String
deriving DecidableEq

/-- calc.ts line 3: the fixed reference trade sizes. -/
def EXAMPLE_AMOUNTS : List ℚ := [1000, 5000, 10000]

/-- calc.ts lines 245-277: the rows produced for one normalized broker
(one row per transaction fee, with the positional index in the id). -/
def flattenBroker (broker : BrokerApiResponse) : List FlattenedPricingRow :=
  let custody := broker.pricing_model.bind (fun pm => pm.custody_fee)
  let fx := broker.pricing_model.bind (fun pm => pm.fx_fees)
  let otherSummary := summarizeOtherFees (broker.pricing_model.bind (fun pm => pm.other_fees))
  ((broker.pricing_model.bind (fun pm => pm.transaction_fees)).getD []).enum.map fun p =>
    let idx := p.1
    let fee := p.2
    { id := broker.broker_name ++ "-" ++ fee.instrument_type ++ "-" ++ fee.market ++ "-" ++ toString idx,
      broker := broker.broker_name,
      instrumentType := fee.instrument_type,
      market := fee.market,
      pricingType := fee.pricing_type,
      baseFee := fee.formula_structured.bind (fun s => s.base),
      percentFee := fee.formula_structured.bind (fun s => s.percent),
      minFee := fee.formula_structured.bind (fun s => s.min),
      maxFee := fee.formula_structured.bind (fun s => s.max),
      custodyFeeType := (custody.map (fun c => c.type)).getD "",
      custodyFeeValue := custody.bind (fun c => c.value),
      custodyFrequency := (custody.map (fun c => c.frequency)).getD "",
      fxFeeType := (fx.map (fun f => f.type)).getD "",
      fxFeeValue := fx.bind (fun f => f.value),
      otherFeesSummary := otherSummary,
      exampleFee1000 := calcLinearOrTieredFee (some fee) (EXAMPLE_AMOUNTS.getD 0 0),
      exampleFee5000 := calcLinearOrTieredFee (some fee) (EXAMPLE_AMOUNTS.getD 1 0),
      exampleFee10000 := calcLinearOrTieredFee (some fee) (EXAMPLE_AMOUNTS.getD 2 0),
      sourceUrl := broker.source_url }

/-- An element of the top-level input array: a broker record in one of the
two accepted JSON shapes (spec section 6). -/
inductive BrokerInput where
  | newFmt (b : NewBrokerResponseFormat)
  | oldFmt (b : BrokerApiResponse)
deriving DecidableEq

/-- The JSON value of an input record, as the classifier sees it. -/
def brokerInputToJVal : BrokerInput → JVal
  | .newFmt b => newBrokerToJVal b
  | .oldFmt b => brokerApiToJVal b

/-- The unchecked TS cast to `NewBrokerResponseFormat` (calc.ts line 242):
reading a canonical-shape record as human-readable finds only `broker_name`;
the optional fields are all absent. -/
def asNewFormat : BrokerInput → NewBrokerResponseFormat
  | .newFmt b => b
  | .oldFmt b => ⟨b.broker_name, none, none, none, none, none, none⟩

/-- The unchecked TS cast to `BrokerApiResponse` (calc.ts line 243): reading
a human-readable record as canonical finds only `broker_name`; in particular
`pricing_model` is absent. -/
def asOldFormat : BrokerInput → BrokerApiResponse
  | .oldFmt b => b
  | .newFmt b => ⟨b.broker_name, none, none, none, none, none, none⟩

/-- The top-level payload handed to the flattener: either a JS array of
broker records, or any non-array JSON value (`Array.isArray` false). -/
inductive ApiPayload where
  | arr (brokers : List BrokerInput)
  | notArray (v : JVal)

/-- JS `Array.isArray`. -/
def isJsArray : JVal → Bool
  | .arr _ => true
  | _ => false

/-- calc.ts lines 236-278: `flattenApiData`.  A non-array payload yields the
empty list (line 237); otherwise, if any element classifies as new-format,
the whole list is normalized first (an all-or-nothing decision), else every
element is read as already canonical. -/
def flattenApiData : ApiPayload → List FlattenedPricingRow
  | .notArray _ => []
  | .arr brokers =>
    let isNew := brokers.any (fun b => isNewFormat (brokerInputToJVal b))
    let normalized :=
      if isNew then convertNewFormatToOldFormat (brokers.map asNewFormat)
      else brokers.map asOldFormat
    normalized.flatMap flattenBroker

/-- The rows a single input record contributes to `flattenApiData`, given the
format decision made for the whole list: under the new-format decision an
error record is dropped and the rest are normalized then flattened; under
the legacy decision the record is flattened as canonical. -/
def rowsForInput (isNew : Bool) (b : BrokerInput) : List FlattenedPricingRow :=
  if isNew then
    if errTruthy (asNewFormat b).error then [] else flattenBroker (convertBroker (asNewFormat b))
  else flattenBroker (asOldFormat b)

/-- Does an input record carry a truthy `error` field?  (Canonical-shape
records have no such field.) -/
def hasErrorInput : BrokerInput → Bool
  | .newFmt b => errTruthy b.error
  | .oldFmt _ => false

/-- The fee tier of the round-trip scenario (spec section 8): condition
"Euronext Brussels – normal charge", fee structure "1% Min. €40". -/
def exTier : FeeTier :=
  { volume_or_condition := "Euronext Brussels – normal charge",
    fee_structure := "1% Min. €40", notes := none }

/-- The fee category of the round-trip scenario: "Trading - Equities". -/
def exCategory : FeeCategory :=
  { category := "Trading - Equities", description := "", tiers := [exTier] }

/-- The human-readable broker record of the round-trip scenario. -/
def exBroker : NewBrokerResponseFormat :=
  { broker_name := "TestBroker", summary := none, fee_categories := some [exCategory],
    special_fees := none, custody_charges := none, missing_data := none, error := none }

/-- The normalizer FX rule as the specification states it: a record only when
some special fee mentions "currency", valued by that fee's parsed percentage
(compare with `convertFxFees`, which follows the source). -/
def fxFeesSpec (b : NewBrokerResponseFormat) : Option FxFee :=
  b.special_fees.map fun fees =>
    { type := "percentage",
      value := (fees.find? (fun f => jsIncludes (jsToLower f.description) "currency")).bind
        (fun f => parsePercentage f.amount),
      notes := "Currency conversion" }

/-- A transaction fee with the clamp-order formula of spec section 8:
base 2, percent 1, min 5, max 50. -/
def clampSampleFee : TransactionFee :=
  { instrument_type := "", market := "", pricing_type := "linear", formula_human := "",
    formula_structured := some ⟨some 2, some 1, some 5, some 50⟩, tiers := none, notes := "" }

/-- A transaction fee whose raw result is exactly 2.005 for every amount. -/
def epsilonSampleFee : TransactionFee :=
  { instrument_type := "", market := "", pricing_type := "linear", formula_human := "",
    formula_structured := some ⟨some (2.005 : ℚ), none, none, none⟩, tiers := none, notes := "" }

/-- A transaction fee with no usable formula and the single tier of spec
section 8 (from 1000, to 5000, fee 10). -/
def tierSampleFee : TransactionFee :=
  { instrument_type := "", market := "", pricing_type := "tiered", formula_human := "",
    formula_structured := none, tiers := some [⟨some 1000, some 5000, some 10, "EUR"⟩],
    notes := "" }

/-- A transaction fee whose `pricing_type` says tiered while its formula has a
non-null base, so the two branch-selection readings disagree. -/
def pricingTypeSampleFee : TransactionFee :=
  { instrument_type := "", market := "", pricing_type := "tiered", formula_human := "",
    formula_structured := some ⟨some 7, none, none, none⟩,
    tiers := some [⟨none, none, some 1, "EUR"⟩], notes := "" }

/-- A broker with one special fee that does not mention "currency". -/
def fxSampleBroker : NewBrokerResponseFormat :=
  { broker_name := "B", summary := none, fee_categories := none,
    special_fees := some [⟨"Wire transfer", "€5", "always"⟩],
    custody_charges := none, missing_data := none, error := none }

/-- A broker with one special fee whose amount is a zero euro amount. -/
def zeroFeeBroker : NewBrokerResponseFormat :=
  { broker_name := "Z", summary := none, fee_categories := none,
    special_fees := some [⟨"Transfer", "€0", "once"⟩],
    custody_charges := none, missing_data := none, error := none }

/-- A broker record flagged with an error and otherwise well-formed. -/
def errorSampleBroker : NewBrokerResponseFormat :=
  { broker_name := "E", summary := none, fee_categories := some [exCategory],
    special_fees := none, custody_charges := none, missing_data := none,
    error := some "scrape failed" }

/-- The canonical record the normalizer produces from `fxSampleBroker`. -/
def normalizedSample : BrokerApiResponse := convertBroker fxSampleBroker

/-- The error-flagged record as a top-level input element. -/
def errorInputSample : BrokerInput := .newFmt errorSampleBroker

/-- The zero-euro special fee of `zeroFeeBroker`. -/
def zeroFeeSample : SpecialFee := { description := "Transfer", amount := "€0", when_applied := "once" }

theorem mem_of_mem_dropWhile {p : Char → Bool} {l : List Char} {a : Char}
    (h : a ∈ l.dropWhile p) : a ∈ l := by
  induction l with
  | nil => simp at h
  | cons x xs ih =>
    rw [List.dropWhile_cons] at h
    by_cases hx : p x = true
    · simp only [hx, if_true] at h
      exact List.mem_cons_of_mem _ (ih h)
    · simp only [hx, if_false] at h
      exact h

theorem matchNumber_rest_subset {cs r : List Char} {q : ℚ}
    (h : matchNumber cs = some (q, r)) : ∀ a ∈ r, a ∈ cs := by
  intro a ha
  simp only [matchNumber] at h
  split at h
  · exact absurd h (by simp)
  · split at h
    next r2 heq =>
      split at h
      · obtain ⟨-, rfl⟩ := Prod.mk.injEq .. ▸ Option.some.injEq .. ▸ h
        exact mem_of_mem_dropWhile ha
      · obtain ⟨-, rfl⟩ := Prod.mk.injEq .. ▸ Option.some.injEq .. ▸ h
        have h1 : a ∈ r2 := mem_of_mem_dropWhile ha
        have h2 : a ∈ cs.dropWhile Char.isDigit := heq ▸ List.mem_cons_of_mem _ h1
        exact mem_of_mem_dropWhile h2
    next heq =>
      obtain ⟨-, rfl⟩ := Prod.mk.injEq .. ▸ Option.some.injEq .. ▸ h
      exact mem_of_mem_dropWhile ha

theorem percentScan_mem {cs : List Char} {q : ℚ} (h : percentScan cs = some q) :
    '%' ∈ cs := by
  induction cs with
  | nil => simp [percentScan] at h
  | cons c rest ih =>
    cases hm : matchNumber (c :: rest) with
    | none =>
      simp only [percentScan, hm] at h
      exact List.mem_cons_of_mem _ (ih h)
    | some p =>
      obtain ⟨v, r⟩ := p
      simp only [percentScan, hm] at h
      split at h
      next x xs heq =>
        by_cases hx : x = '%'
        · subst hx
          have h1 : '%' ∈ r.dropWhile jsSpace := heq ▸ List.mem_cons_self _ _
          exact matchNumber_rest_subset hm _ (mem_of_mem_dropWhile h1)
        · rw [if_neg hx] at h
          exact List.mem_cons_of_mem _ (ih h)
      next heq =>
        exact List.mem_cons_of_mem _ (ih h)

theorem listContains_single_of_mem {l : List Char} {c : Char} (h : c ∈ l) :
    listContains l [c] = true := by
  induction l with
  | nil => cases h
  | cons x xs ih =>
    rw [listContains]
    by_cases hx : startsWithCh (x :: xs) [c] = true
    · rw [if_pos hx]
    · rw [if_neg hx]
      rcases List.mem_cons.mp h with h | h
      · exact absurd (by simp [startsWithCh, h.symm] : startsWithCh (x :: xs) [c] = true) hx
      · exact ih h

theorem parsePercentage_none_of_no_percent {s : String} (hp : jsIncludes s "%" = false) :
    parsePercentage s = none := by
  cases hq : parsePercentage s with
  | none => rfl
  | some q =>
    exfalso
    have hmem : '%' ∈ s.data := percentScan_mem hq
    have htrue : jsIncludes s "%" = true := listContains_single_of_mem hmem
    rw [hp] at htrue
    cases htrue

theorem calc_tier_branch {fee : TransactionFee} (h : hasLinearFormula fee = false)
    (amount : ℚ) : calcLinearOrTieredFee (some fee) amount = evalTiers fee amount := by
  simp [calcLinearOrTieredFee, h]

theorem calc_linear_eval (g : TransactionFee) (s : StructuredFormula) (amount : ℚ)
    (hs : g.formula_structured = some s) (hbp : (s.base.isSome || s.percent.isSome) = true) :
    calcLinearOrTieredFee (some g) amount =
      some (roundToCents (clampMax s.max (clampMin s.min
        (s.base.getD 0 + s.percent.getD 0 / 100 * amount)))) := by
  have hL : hasLinearFormula g = true := by simp [hasLinearFormula, hs, hbp]
  simp [calcLinearOrTieredFee, hL, evalLinear, hs]

/-- C1: a formula with base 2, percent 1, min 5, max 50 evaluates to 5.00 at
amount 100 (the raw value 3 is clamped up to the minimum) and to 50.00 at
amount 10000 (the raw value 102 is clamped down to the maximum); in general
the linear branch computes base plus percent of the amount, applies the min
clamp and then the max clamp, each only when the bound is present. -/
theorem c1_linear_clamp_order (fee : TransactionFee)
    (h : fee.formula_structured = some ⟨some 2, some 1, some 5, some 50⟩) :
    calcLinearOrTieredFee (some fee) 100 = some 5 ∧
    calcLinearOrTieredFee (some fee) 10000 = some 50 ∧
    ∀ (g : TransactionFee) (s : StructuredFormula) (amount : ℚ),
      g.formula_structured = some s → (s.base.isSome || s.percent.isSome) = true →
      calcLinearOrTieredFee (some g) amount =
        some (roundToCents (clampMax s.max (clampMin s.min
          (s.base.getD 0 + s.percent.getD 0 / 100 * amount)))) := by
  refine ⟨?_, ?_, fun g s amount hs hbp => calc_linear_eval g s amount hs hbp⟩
  · rw [calc_linear_eval fee _ 100 h rfl]; decide
  · rw [calc_linear_eval fee _ 10000 h rfl]; decide

theorem c1_linear_clamp_order_witness :
    clampSampleFee.formula_structured = some ⟨some 2, some 1, some 5, some 50⟩ ∧
    (calcLinearOrTieredFee (some clampSampleFee) 100 = some 5 ∧
     calcLinearOrTieredFee (some clampSampleFee) 10000 = some 50 ∧
     ∀ (g : TransactionFee) (s : StructuredFormula) (amount : ℚ),
       g.formula_structured = some s → (s.base.isSome || s.percent.isSome) = true →
       calcLinearOrTieredFee (some g) amount =
         some (roundToCents (clampMax s.max (clampMin s.min
           (s.base.getD 0 + s.percent.getD 0 / 100 * amount))))) :=
  ⟨rfl, c1_linear_clamp_order clampSampleFee rfl⟩

/-- C2: a formula whose raw result is exactly 2.005 evaluates to 2.01 (not
2.00) at every amount, by the epsilon-aware rounding of `roundToCents`; and
every rounded output is an integer number of cents. -/
theorem c2_epsilon_rounding (fee : TransactionFee)
    (h : fee.formula_structured = some ⟨some (2.005 : ℚ), none, none, none⟩) :
    (∀ amount : ℚ, calcLinearOrTieredFee (some fee) amount = some (2.01 : ℚ)) ∧
    roundToCents (2.005 : ℚ) = (2.01 : ℚ) ∧
    (2.01 : ℚ) ≠ 2 ∧
    ∀ v : ℚ, ∃ n : ℤ, roundToCents v = (n : ℚ) / 100 := by
  refine ⟨?_, by decide, by decide,
    fun v => ⟨jsMathRound ((v + NumberEPSILON) * 100), rfl⟩⟩
  intro amount
  rw [calc_linear_eval fee _ amount h rfl]
  have : (2.005 : ℚ) + (0 : ℚ) / 100 * amount = (2.005 : ℚ) := by ring
  simp only [clampMax, clampMin, Option.getD_some, Option.getD_none, this]
  decide

theorem c2_epsilon_rounding_witness :
    epsilonSampleFee.formula_structured = some ⟨some (2.005 : ℚ), none, none, none⟩ ∧
    ((∀ amount : ℚ, calcLinearOrTieredFee (some epsilonSampleFee) amount = some (2.01 : ℚ)) ∧
     roundToCents (2.005 : ℚ) = (2.01 : ℚ) ∧
     (2.01 : ℚ) ≠ 2 ∧
     ∀ v : ℚ, ∃ n : ℤ, roundToCents v = (n : ℚ) / 100) :=
  ⟨rfl, c2_epsilon_rounding epsilonSampleFee rfl⟩

/-- C3: with no usable formula (base and percent both null) and the single
tier from 1000 to 5000 with fee 10, the evaluator returns 10.00 at both
inclusive bounds and null just outside them; in general an absent bound is
unbounded and the first tier in list order that contains the amount wins. -/
theorem c3_tier_boundary (fee : TransactionFee)
    (hf : hasLinearFormula fee = false)
    (ht : fee.tiers = some [⟨some 1000, some 5000, some 10, "EUR"⟩]) :
    calcLinearOrTieredFee (some fee) 1000 = some 10 ∧
    calcLinearOrTieredFee (some fee) 5000 = some 10 ∧
    calcLinearOrTieredFee (some fee) 999 = none ∧
    calcLinearOrTieredFee (some fee) 5001 = none ∧
    ∀ (g : TransactionFee) (t : PricingTier) (ts : List PricingTier) (amount : ℚ),
      hasLinearFormula g = false → g.tiers = some (t :: ts) → tierContains amount t = true →
      calcLinearOrTieredFee (some g) amount = t.fee.map roundToCents := by
  refine ⟨?_, ?_, ?_, ?_, ?_⟩
  · rw [calc_tier_branch hf]; simp only [evalTiers, ht]; decide
  · rw [calc_tier_branch hf]; simp only [evalTiers, ht]; decide
  · rw [calc_tier_branch hf]; simp only [evalTiers, ht]; decide
  · rw [calc_tier_branch hf]; simp only [evalTiers, ht]; decide
  · intro g t ts amount hg hgt hcont
    rw [calc_tier_branch hg]
    simp only [evalTiers, hgt, List.isEmpty_cons, List.find?_cons_of_pos _ hcont,
      if_false, Bool.false_eq_true, if_neg]

theorem c3_tier_boundary_witness :
    hasLinearFormula tierSampleFee = false ∧
    tierSampleFee.tiers = some [⟨some 1000, some 5000, some 10, "EUR"⟩] ∧
    (calcLinearOrTieredFee (some tierSampleFee) 1000 = some 10 ∧
     calcLinearOrTieredFee (some tierSampleFee) 5000 = some 10 ∧
     calcLinearOrTieredFee (some tierSampleFee) 999 = none ∧
     calcLinearOrTieredFee (some tierSampleFee) 5001 = none ∧
     ∀ (g : TransactionFee) (t : PricingTier) (ts : List PricingTier) (amount : ℚ),
       hasLinearFormula g = false → g.tiers = some (t :: ts) → tierContains amount t = true →
       calcLinearOrTieredFee (some g) amount = t.fee.map roundToCents) :=
  ⟨rfl, rfl, c3_tier_boundary tierSampleFee rfl rfl⟩

/-- C4: the round-trip scenario: one human-readable broker with category
"Trading - Equities", condition "Euronext Brussels – normal charge" and fee
structure "1% Min. €40" flattens to exactly one row, classified Equities on
Euronext, with example fees 40.00 at 1000 and 100.00 at 10000. -/
theorem c4_round_trip_scenario :
    (flattenApiData (.arr [.newFmt exBroker])).map
      (fun r => (r.broker, r.instrumentType, r.market, r.exampleFee1000, r.exampleFee10000)) =
      [("TestBroker", "Equities", "Euronext", some 40, some 100)] := by
  decide

/-- C5 counterexample: a record whose `pricing_type` is "tiered" but whose
formula has a non-null base is evaluated by the linear formula (result 7),
not by tier lookup (which would give 1): `pricing_type` does not determine
the branch. -/
theorem c5_pricing_type_ignored_counterexample :
    pricingTypeSampleFee.pricing_type = "tiered" ∧
    calcLinearOrTieredFee (some pricingTypeSampleFee) 100 = some 7 ∧
    evalTiers pricingTypeSampleFee 100 = some 1 ∧
    calcLinearOrTieredFee (some pricingTypeSampleFee) 100 ≠
      evalTiers pricingTypeSampleFee 100 := by
  decide

/-- C5 amended: the evaluator ignores `pricing_type` entirely; the branch is
determined by the formula: the linear formula applies when `formula_structured`
has a non-null base or percent, and tier lookup otherwise. -/
theorem c5_branch_by_formula_presence (fee : TransactionFee) (s : String) (amount : ℚ) :
    calcLinearOrTieredFee (some { fee with pricing_type := s }) amount =
      calcLinearOrTieredFee (some fee) amount ∧
    calcLinearOrTieredFee (some fee) amount =
      (if hasLinearFormula fee then evalLinear fee amount else evalTiers fee amount) := by
  obtain ⟨a, b, c, d, e, f, g⟩ := fee
  exact ⟨rfl, rfl⟩

theorem isNewFormat_brokerApi (b : BrokerApiResponse) :
    isNewFormat (brokerApiToJVal b) = false := by
  obtain ⟨n, c, su, st, sl, ac, pm⟩ := b
  cases c <;> cases su <;> cases st <;> cases sl <;> cases ac <;> cases pm <;> rfl

/-- C6: the classifier reports "not new-format" on every record produced by
the normalizer: normalized output is never reclassified as needing
conversion. -/
theorem c6_classifier_on_normalized (bs : List NewBrokerResponseFormat)
    (b : BrokerApiResponse) (h : b ∈ convertNewFormatToOldFormat bs) :
    isNewFormat (brokerApiToJVal b) = false :=
  isNewFormat_brokerApi b

theorem c6_classifier_on_normalized_witness :
    normalizedSample ∈ convertNewFormatToOldFormat [fxSampleBroker] ∧
    isNewFormat (brokerApiToJVal normalizedSample) = false :=
  ⟨by decide, c6_classifier_on_normalized [fxSampleBroker] normalizedSample (by decide)⟩

theorem flattenArr_decompose (flag : Bool) (bs : List BrokerInput) :
    (if flag then convertNewFormatToOldFormat (bs.map asNewFormat)
     else bs.map asOldFormat).flatMap flattenBroker = bs.flatMap (rowsForInput flag) := by
  cases flag with
  | false =>
    induction bs with
    | nil => rfl
    | cons a bs ih =>
      simp only [if_neg (by simp : ¬false = true)] at ih ⊢
      simp only [List.map_cons, List.flatMap_cons, rowsForInput, if_neg (by simp : ¬false = true), ih]
  | true =>
    induction bs with
    | nil => rfl
    | cons a bs ih =>
      simp only [if_pos rfl] at ih ⊢
      by_cases he : errTruthy (asNewFormat a).error = true
      · simp only [convertNewFormatToOldFormat, List.map_cons, List.filter_cons, he,
          Bool.not_true, if_neg (by simp : ¬false = true), List.flatMap_cons, rowsForInput,
          if_pos rfl, if_pos he, List.nil_append]
        exact ih
      · have he' : errTruthy (asNewFormat a).error = false := by
          cases hx : errTruthy (asNewFormat a).error
          · rfl
          · exact absurd hx he
        simp only [convertNewFormatToOldFormat, List.map_cons, List.filter_cons, he',
          Bool.not_false, if_pos rfl, List.map_cons, List.flatMap_cons, rowsForInput,
          if_neg he]
        exact congrArg _ ih

/-- C7: a broker record with a truthy `error` field contributes zero rows to
the flattened output: the output is the concatenation of the per-record row
lists (under the all-or-nothing format decision for the list), and the row
list of an error record is empty under either decision. -/
theorem c7_error_record_excluded (bs : List BrokerInput) (b : BrokerInput)
    (h : hasErrorInput b = true) :
    flattenApiData (.arr bs) =
      bs.flatMap (rowsForInput (bs.any fun x => isNewFormat (brokerInputToJVal x))) ∧
    ∀ flag, rowsForInput flag b = [] := by
  constructor
  · simp only [flattenApiData]
    exact flattenArr_decompose _ bs
  · intro flag
    cases b with
    | oldFmt b => simp [hasErrorInput] at h
    | newFmt nb =>
      have he : errTruthy nb.error = true := h
      cases flag with
      | true => simp [rowsForInput, asNewFormat, he]
      | false => rfl

theorem c7_error_record_excluded_witness :
    hasErrorInput errorInputSample = true ∧
    (flattenApiData (.arr [errorInputSample]) =
       [errorInputSample].flatMap
         (rowsForInput ([errorInputSample].any fun x => isNewFormat (brokerInputToJVal x))) ∧
     ∀ flag, rowsForInput flag errorInputSample = []) :=
  ⟨by decide, c7_error_record_excluded [errorInputSample] errorInputSample (by decide)⟩

/-- C8: for every non-array top-level payload the flattener returns the empty
list; the function is total, so no exception is possible. -/
theorem c8_non_array_empty (v : JVal) (h : isJsArray v = false) :
    flattenApiData (.notArray v) = [] := rfl

theorem c8_non_array_empty_witness :
    isJsArray JVal.null = false ∧ flattenApiData (.notArray JVal.null) = [] :=
  ⟨rfl, c8_non_array_empty JVal.null rfl⟩

/-- C9 counterexample: a broker whose special fees never mention "currency"
still gets an FX fee record synthesized (with a null value): the claim that
no FX fee is synthesized in that case is false. -/
theorem c9_fx_synthesis_counterexample :
    ((fxSampleBroker.special_fees.getD []).all
        fun f => !jsIncludes (jsToLower f.description) "currency") = true ∧
    (convertBroker fxSampleBroker).pricing_model.map (fun pm => pm.fx_fees) =
      some (some ⟨"percentage", none, "Currency conversion"⟩) := by
  decide

/-- C9 amended: an FX fee record is synthesized exactly when the record's
`special_fees` field is present (even empty); its value is the parsed
percentage of the amount of the first special fee whose lowercased
description contains "currency", and null when there is no such fee or its
amount has no percent sign (in which case the percentage parse is null
anyway). -/
theorem c9_fx_synthesis_amended (b : NewBrokerResponseFormat) :
    (convertBroker b).pricing_model.map (fun pm => pm.fx_fees) = some (fxFeesSpec b) := by
  have h1 : (convertBroker b).pricing_model.map (fun pm => pm.fx_fees) =
      some (convertFxFees b) := rfl
  rw [h1]
  suffices h : convertFxFees b = fxFeesSpec b by rw [h]
  unfold convertFxFees fxFeesSpec
  cases hsf : b.special_fees with
  | none => rfl
  | some fees =>
    simp only [Option.map_some']
    cases hfind : fees.find? (fun f => jsIncludes (jsToLower f.description) "currency") with
    | none => simp [hfind]
    | some f =>
      simp only [hfind, Option.some_bind]
      by_cases hp : jsIncludes f.amount "%" = true
      · simp [hp]
      · have hp' : jsIncludes f.amount "%" = false := by
          cases hx : jsIncludes f.amount "%"
          · rfl
          · exact absurd hx hp
        simp [hp', parsePercentage_none_of_no_percent hp']

/-- C10: a special fee whose amount parses to the euro amount 0 and has no
percent sign is recorded with a null value, not 0: the zero euro parse is
falsy in the `||` chain and the percentage fallback cannot match without a
percent sign, so a parsed zero is indistinguishable from an unparseable
amount in the normalized output. -/
theorem c10_zero_euro_amount_null (b : NewBrokerResponseFormat)
    (fees : List SpecialFee) (f : SpecialFee)
    (hb : b.special_fees = some fees) (hf : f ∈ fees)
    (h0 : parseEuroAmount f.amount = some 0) (hp : jsIncludes f.amount "%" = false) :
    (convertBroker b).pricing_model.map (fun pm => pm.other_fees) =
      some (some (fees.map mkOtherFee)) ∧
    (mkOtherFee f).value = none := by
  constructor
  · have h1 : (convertBroker b).pricing_model.map (fun pm => pm.other_fees) =
        some (if ((b.special_fees.getD []).map mkOtherFee).isEmpty then none
          else some ((b.special_fees.getD []).map mkOtherFee)) := rfl
    rw [h1, hb]
    have hne : fees ≠ [] := List.ne_nil_of_mem hf
    cases fees with
    | nil => exact absurd rfl hne
    | cons x xs => rfl
  · have h2 : (mkOtherFee f).value =
        jsOrNum (parseEuroAmount f.amount) (parsePercentage f.amount) := rfl
    rw [h2, h0, parsePercentage_none_of_no_percent hp]
    rfl

theorem c10_zero_euro_amount_null_witness :
    zeroFeeBroker.special_fees = some [zeroFeeSample] ∧
    zeroFeeSample ∈ [zeroFeeSample] ∧
    parseEuroAmount zeroFeeSample.amount = some 0 ∧
    jsIncludes zeroFeeSample.amount "%" = false ∧
    ((convertBroker zeroFeeBroker).pricing_model.map (fun pm => pm.other_fees) =
       some (some ([zeroFeeSample].map mkOtherFee)) ∧
     (mkOtherFee zeroFeeSample).value = none) :=
  ⟨rfl, by decide, by decide, by decide,
    c10_zero_euro_amount_null zeroFeeBroker [zeroFeeSample] zeroFeeSample rfl
      (by decide) (by decide) (by decide)⟩
